import Mathlib

/-!
A shallow embedding of the INGInious custom-problem plugin
(inginious-problems-custom/__init__.py).

The embedding covers box construction (CustomProblem._init_boxes,
CustomProblem._create_box and the per-variant constructors), the
per-box and problem-level input_is_consistent checks,
adapt_input_for_backend, and CustomProblem.parse_problem.  The host
framework (template rendering, routing, grading backend) is out of
scope, matching the specification.  Two host helpers the plugin calls
are modelled from the spec: id_checker and the base-class
Problem.parse_problem.
-/

/-!  ## JSON values

Box configurations are produced by json.loads with object_pairs_hook
set to OrderedDict, so objects are ordered association lists.  Numbers
are restricted to integers: every numeric field a box configuration
uses (maxChars, lines, max_size) is integral. -/

inductive Json where
  | null : Json
  | bool (b : Bool) : Json
  | num (n : Int) : Json
  | str (s : String) : Json
  | arr (items : List Json) : Json
  | obj (members : List (String × Json)) : Json

/-- Association-list lookup, first binding wins: the behaviour of a
Python dict whose keys are unique, and a sound reading otherwise. -/
def alookup {α : Type} : List (String × α) → String → Option α
  | [], _ => none
  | (k, v) :: rest, key => if k = key then some v else alookup rest key

/-- boxData.get(k, None) on a decoded JSON object; None on non-objects. -/
def Json.getField : Json → String → Option Json
  | .obj ms, k => alookup ms k
  | _, _ => none

/-- Python truthiness of a JSON-decoded value (None, False, 0, empty
string, empty list and empty dict are falsy). -/
def Json.truthy : Json → Bool
  | .null => false
  | .bool b => b
  | .num n => n ≠ 0
  | .str s => s ≠ ""
  | .arr items => !items.isEmpty
  | .obj members => !members.isEmpty

/-- isinstance(x, int) plus the integer value: Python bool is a
subclass of int, so True counts as 1 and False as 0. -/
def Json.asPyInt : Json → Option Int
  | .num n => some n
  | .bool b => some (if b then 1 else 0)
  | _ => none

/-!  ## Submission values

Runtime values appearing in a submission mapping.  bytes records only
the payload length (the file checks use only the size); upload models
the web-framework uploaded-file object carrying .filename and .value
attributes, used by DisplayableFileBox.adapt_input_for_backend. -/

inductive Value where
  | str (s : String) : Value
  | int (n : Int) : Value
  | bytes (len : Nat) : Value
  | dict (entries : List (String × Value)) : Value
  | upload (filename : Value) (payload : Value) : Value

/-- Python exceptions distinguished by the embedding. -/
inductive PyError where
  | typeError : PyError
  | keyError : PyError
  | valueError : PyError
  | attributeError : PyError
  deriving DecidableEq, Repr

/-- A submission mapping (Python dict keyed by composite box ids). -/
abbrev TaskInput := List (String × Value)

/-- Python dict assignment d[k] = v: replace the first binding of k if
present, otherwise append a new one. -/
def tiSet : TaskInput → String → Value → TaskInput
  | [], key, v => [(key, v)]
  | (k, w) :: rest, key, v =>
    if k = key then (key, v) :: rest else (k, w) :: tiSet rest key v

/-- Python len(); objects without a length raise TypeError. -/
def pyLen : Value → Except PyError Nat
  | .str s => .ok s.length
  | .bytes n => .ok n
  | .dict entries => .ok entries.length
  | .int _ => .error .typeError
  | .upload _ _ => .error .typeError

/-- sys.getsizeof with CPython (64-bit) constants: 49 + length for a
one-byte-per-character string, 33 + length for bytes, 28 for a small
int, and fixed representative sizes for the container shapes. -/
def getsizeof : Value → Nat
  | .str s => 49 + s.length
  | .bytes n => 33 + n
  | .int _ => 28
  | .dict _ => 64
  | .upload _ _ => 56

/-- Subscription v[k] with a string key: dicts look the key up
(KeyError if absent); everything else raises TypeError. -/
def getItem : Value → String → Except PyError Value
  | .dict entries, k =>
    match alookup entries k with
    | some v => .ok v
    | none => .error .keyError
  | _, _ => .error .typeError

/-!  ## Python numeric-string parsing

int() and float() on strings, as used by InputBox.input_is_consistent:
surrounding ASCII whitespace is ignored, a single leading sign is
allowed, and single underscores may separate digit groups. -/

def isAsciiDigit (c : Char) : Bool := '0' ≤ c && c ≤ '9'

def isPySpace (c : Char) : Bool :=
  c = ' ' || c = '\t' || c = '\n' || c = '\r' || c = Char.ofNat 11 || c = Char.ofNat 12

/-- A nonempty digit run in which single underscores may separate two
digits (the grammar of Python numeric literals). -/
def digitRun : List Char → Bool
  | [] => false
  | [c] => isAsciiDigit c
  | c :: d :: rest =>
    isAsciiDigit c && (if d = '_' then digitRun rest else digitRun (d :: rest))

/-- Numeric value of a digit run, skipping underscores. -/
def digitRunVal (cs : List Char) : Nat :=
  cs.foldl (fun acc c => if c = '_' then acc else acc * 10 + (c.toNat - 48)) 0

/-- Strip leading and trailing Python whitespace. -/
def pyStrip (cs : List Char) : List Char :=
  ((cs.dropWhile isPySpace).reverse.dropWhile isPySpace).reverse

/-- int(s) for a string s: Some value on success, none on ValueError. -/
def pyIntOfString (s : String) : Option Int :=
  match pyStrip s.data with
  | '+' :: rest => if digitRun rest then some (digitRunVal rest : Int) else none
  | '-' :: rest => if digitRun rest then some (-(digitRunVal rest : Int)) else none
  | cs => if digitRun cs then some (digitRunVal cs : Int) else none

/-- The mantissa part of a float literal: digits, digits followed by a
dot, digits dot digits, or dot digits. -/
def floatMantissaOk (cs : List Char) : Bool :=
  match cs.splitOn '.' with
  | [whole] => digitRun whole
  | [whole, frac] =>
    (digitRun whole && frac.isEmpty) || (digitRun whole && digitRun frac) ||
      (whole.isEmpty && digitRun frac)
  | _ => false

/-- The exponent of a float literal: an optional sign then digits. -/
def floatExpOk (cs : List Char) : Bool :=
  match cs with
  | '+' :: rest => digitRun rest
  | '-' :: rest => digitRun rest
  | _ => digitRun cs

/-- Acceptance of float(s) on a string (the value itself is unused by
the plugin, which only checks that the call does not raise). -/
def pyFloatAccepts (s : String) : Bool :=
  let cs := (pyStrip s.data).map Char.toLower
  let body :=
    match cs with
    | '+' :: rest => rest
    | '-' :: rest => rest
    | rest => rest
  (body = "inf".data) || (body = "infinity".data) || (body = "nan".data) ||
    (match body.splitOn 'e' with
     | [mant] => floatMantissaOk mant
     | [mant, expo] => floatMantissaOk mant && floatExpOk expo
     | _ => false)

/-- int(x) as called on a submitted value; bytes payloads are not
tracked by the embedding, so int() on bytes is modelled as failing. -/
def pyInt : Value → Except PyError Int
  | .int n => .ok n
  | .str s =>
    match pyIntOfString s with
    | some n => .ok n
    | none => .error .valueError
  | _ => .error .typeError

/-- float(x) as called on a submitted value (acceptance only). -/
def pyFloat : Value → Except PyError Unit
  | .int _ => .ok ()
  | .str s => if pyFloatAccepts s then .ok () else .error .valueError
  | _ => .error .typeError

/-!  ## Box identifiers and construction -/

/-- Modelled from the spec: the host helper id_checker
(inginious.common.base, outside this repository) accepts exactly the
nonempty strings over letters, digits, underscore and dash
("accepts ^[A-Za-z0-9_-]+$", spec section 8). -/
def id_checker (s : String) : Bool :=
  s ≠ "" && s.data.all (fun c => c.isAlphanum || c = '_' || c = '-')

/-- The subtype of an InputBox, fixed by the type tag at construction. -/
inductive InputType where
  | text : InputType
  | integer : InputType
  | decimal : InputType
  deriving DecidableEq, Repr

/-- The per-subtype default written back for an empty optional answer
(InputBox.__init__ sets self._default_value together with the type). -/
def InputType.defaultValue : InputType → String
  | .text => ""
  | .integer => "0"
  | .decimal => "0.0"

/-- A constructed box: configuration as validated and stored by the
variant constructors.  allowed_exts and max_size of a file box keep
the raw decoded JSON, as FileBox.__init__ stores boxData.get(...). -/
inductive BoxKind where
  | text (content : Json) : BoxKind
  | file (allowed_exts : Option Json) (max_size : Option Json) : BoxKind
  | input (ty : InputType) (optional : Bool) (maxChars : Nat) : BoxKind
  | multiline (maxChars : Nat) (optional : Bool) (lines : Nat) (language : String) : BoxKind

structure Box where
  problemId : String
  boxId : String
  kind : BoxKind

/-- BasicBox.get_complete_id: problem id, joined to the box id by a
slash when the box id is nonempty. -/
def Box.completeId (b : Box) : String :=
  if b.boxId ≠ "" then b.problemId ++ "/" ++ b.boxId else b.problemId

/-- The shared maxChars validation of InputBox.__init__ and
MultilineBox.__init__: absent means 0 (unlimited); a present value
must be an int (Python bools included) strictly above 0. -/
def parseMaxChars (boxid : String) (bd : Json) : Except String Nat :=
  match bd.getField "maxChars" with
  | some j =>
    match j.asPyInt with
    | some n => if 0 < n then .ok n.toNat else .error ("Invalid maxChars value in box " ++ boxid)
    | none => .error ("Invalid maxChars value in box " ++ boxid)
  | none => .ok 0

/-- boxData.get("optional", False) as later used under Python
truthiness by the consistency checks. -/
def parseOptional (bd : Json) : Bool :=
  match bd.getField "optional" with
  | some j => j.truthy
  | none => false

/-- TextBox.__init__: a content field is required. -/
def TextBox.init (boxid : String) (bd : Json) : Except String BoxKind :=
  match bd.getField "content" with
  | some c => .ok (.text c)
  | none => .error ("Box _id " ++ boxid ++ " with type=text do not have content.")

/-- FileBox.__init__: stores allowed_exts and max_size unvalidated. -/
def FileBox.init (_boxid : String) (bd : Json) : Except String BoxKind :=
  .ok (.file (bd.getField "allowed_exts") (bd.getField "max_size"))

/-- InputBox.__init__: subtype and default from the type tag, then
optional and maxChars. -/
def InputBox.init (boxid : String) (bd : Json) : Except String BoxKind := do
  let ty ←
    match bd.getField "type" with
    | some (.str "input-text") => Except.ok InputType.text
    | some (.str "input-integer") => Except.ok InputType.integer
    | some (.str "input-decimal") => Except.ok InputType.decimal
    | _ => Except.error ("No such box type in box " ++ boxid)
  let mc ← parseMaxChars boxid bd
  .ok (.input ty (parseOptional bd) mc)

/-- A character admitted by the language pattern of
MultilineBox.__init__, the case-insensitive class [a-z0-9\-_.]. -/
def languageCharOk (c : Char) : Bool :=
  c.isAlphanum || c = '-' || c = '_' || c = '.'

/-- MultilineBox.__init__: maxChars, optional, lines (default 8) and
language (default plain; a nonempty value not matching the pattern is
a construction error; a non-string value makes re.match raise). -/
def MultilineBox.init (boxid : String) (bd : Json) : Except String BoxKind := do
  let mc ← parseMaxChars boxid bd
  let opt := parseOptional bd
  let lines ←
    match bd.getField "lines" with
    | some j =>
      match j.asPyInt with
      | some n =>
        if 0 < n then Except.ok n.toNat else Except.error ("Invalid lines value in box " ++ boxid)
      | none => Except.error ("Invalid lines value in box " ++ boxid)
    | none => Except.ok 8
  let lang ←
    match (bd.getField "language").getD (.str "") with
    | .str s =>
      if s ≠ "" && s.data.all languageCharOk then Except.ok s
      else if s ≠ "" then Except.error ("Invalid language " ++ s)
      else Except.ok "plain"
    | _ => Except.error "TypeError: re.match expected a string"
  .ok (.multiline mc opt lines lang)

/-- CustomProblem._create_box: reject ids failing id_checker (the
empty string excepted), require a type field naming one of the six
registered tags, then run the matching variant constructor. -/
def create_box (problemId boxid : String) (bc : Json) : Except String Box := do
  if !id_checker boxid && boxid ≠ "" then
    Except.error ("Invalid box _id " ++ boxid)
  else
    match bc.getField "type" with
    | none => Except.error ("Box " ++ boxid ++ " does not have a type")
    | some (.str tag) =>
      let kind ←
        if tag = "input-text" || tag = "input-integer" || tag = "input-decimal" then
          InputBox.init boxid bc
        else if tag = "multiline" then MultilineBox.init boxid bc
        else if tag = "text" then TextBox.init boxid bc
        else if tag = "file" then FileBox.init boxid bc
        else Except.error ("Unknown box type " ++ tag ++ " for box _id " ++ boxid)
      .ok (Box.mk problemId boxid kind)
    | some _ => Except.error ("Unknown box type for box _id " ++ boxid)

/-- The loop body of CustomProblem._init_boxes over the ordered box
mapping: an empty box id is rejected outright before _create_box runs. -/
def init_boxes_go (problemId : String) : List (String × Json) → Except String (List Box)
  | [] => .ok []
  | (boxid, bc) :: rest =>
    if boxid = "" then .error "Empty box ids are not allowed"
    else
      match create_box problemId boxid bc with
      | .error e => .error e
      | .ok b =>
        match init_boxes_go problemId rest with
        | .error e => .error e
        | .ok bs => .ok (b :: bs)

/-- CustomProblem._init_boxes: without a boxes field the problem keeps
no boxes; the boxes value must be a decoded object (items() on
anything else raises). -/
def init_boxes (problemId : String) (content : List (String × Json)) :
    Except String (List Box) :=
  match alookup content "boxes" with
  | none => .ok []
  | some (.obj members) => init_boxes_go problemId members
  | some _ => .error "AttributeError: boxes content has no items()"

/-!  ## Per-box consistency checks

Each check returns the boolean verdict together with the submission
mapping, which optional-field defaulting rewrites in place; an escaped
Python exception is an .error result. -/

/-- BasicBox.input_is_consistent: the composite id must be a key of
the submission mapping (the membership test cannot raise here). -/
def basic_consistent (cid : String) (ti : TaskInput) : Bool :=
  (alookup ti cid).isSome

/-- TextBox.input_is_consistent is constantly true. -/
def TextBox.input_is_consistent (_ti : TaskInput) : Bool := true

/-- tuple(allowed_exts or default): None and empty containers fall
back to the caller default; a string iterates into its characters; a
dict iterates its keys; a non-string element or a non-iterable makes
the endswith call raise (caught by the surrounding try). -/
def extsOfJson : List Json → Except PyError (List String)
  | [] => .ok []
  | .str s :: rest =>
    match extsOfJson rest with
    | .ok l => .ok (s :: l)
    | .error e => .error e
  | _ :: _ => .error .typeError

def fileEffectiveExts (aexts : Option Json) (dflt : List String) :
    Except PyError (List String) :=
  match aexts with
  | none => .ok dflt
  | some j =>
    if j.truthy then
      match j with
      | .arr items => extsOfJson items
      | .str s => .ok (s.data.map (fun c => String.mk [c]))
      | .obj members => .ok (members.map Prod.fst)
      | _ => .error .typeError
    else .ok dflt

/-- max_size or default: falsy stored values fall back to the caller
default; a truthy non-integer makes the size comparison raise. -/
def fileEffectiveMax (msize : Option Json) (dflt : Int) : Except PyError Int :=
  match msize with
  | none => .ok dflt
  | some j =>
    if j.truthy then
      match j.asPyInt with
      | some n => .ok n
      | none => .error .typeError
    else .ok dflt

/-- str.endswith on one candidate: a plain suffix test over the
character sequence, no dot separator involved. -/
def pyEndsWith (s sfx : String) : Bool := sfx.data.isSuffixOf s.data

/-- The try-block of FileBox.input_is_consistent: fetch the entry, its
filename (which must be a string for .endswith to exist), test the
suffix against the effective extensions, then compare the size of the
value against the effective limit. -/
def fileTryBlock (cid : String) (aexts msize : Option Json) (ti : TaskInput)
    (dfltExts : List String) (dfltMax : Int) : Except PyError Bool :=
  match alookup ti cid with
  | none => .error .keyError
  | some entry =>
    match getItem entry "filename" with
    | .error e => .error e
    | .ok (.str fnStr) =>
      match fileEffectiveExts aexts dfltExts with
      | .error e => .error e
      | .ok exts =>
        if !(exts.any (fun x => pyEndsWith fnStr x)) then .ok false
        else
          match getItem entry "value" with
          | .error e => .error e
          | .ok payload =>
            match fileEffectiveMax msize dfltMax with
            | .error e => .error e
            | .ok mx => if (getsizeof payload : Int) > mx then .ok false else .ok true
    | .ok _ => .error .attributeError

/-- FileBox.input_is_consistent: base presence check, then the guarded
try-block; every exception inside it resolves to false. -/
def FileBox.input_is_consistent (cid : String) (aexts msize : Option Json)
    (ti : TaskInput) (dfltExts : List String) (dfltMax : Int) : Bool :=
  if !basic_consistent cid ti then false
  else
    match fileTryBlock cid aexts msize ti dfltExts dfltMax with
    | .ok b => b
    | .error _ => false

/-- The integer/decimal parse checks of InputBox.input_is_consistent
(lines re-reading taskInput after possible defaulting); each parse is
wrapped in its own try/except returning False. -/
def inputParseChecks (cid : String) (ty : InputType) (ti : TaskInput) : Bool :=
  match ty with
  | .text => true
  | .integer =>
    match alookup ti cid with
    | none => false
    | some v =>
      match pyInt v with
      | .ok _ => true
      | .error _ => false
  | .decimal =>
    match alookup ti cid with
    | none => false
    | some v =>
      match pyFloat v with
      | .ok _ => true
      | .error _ => false

/-- The empty-answer try-block of InputBox.input_is_consistent: a
failing len() here is caught and resolves to false; an empty optional
answer is rewritten in place to the subtype default before the parse
checks run. -/
def inputEmptyBlock (cid : String) (ty : InputType) (opt : Bool)
    (ti : TaskInput) (v : Value) : Except PyError (Bool × TaskInput) :=
  match pyLen v with
  | .error _ => .ok (false, ti)
  | .ok n =>
    if n = 0 then
      if opt then
        let ti2 := tiSet ti cid (.str ty.defaultValue)
        .ok (inputParseChecks cid ty ti2, ti2)
      else .ok (false, ti)
    else .ok (inputParseChecks cid ty ti, ti)

/-- InputBox.input_is_consistent: presence, then the maxChars bound —
whose len() call sits outside every try/except, so it can raise — then
the guarded empty-answer handling and the subtype parse checks. -/
def InputBox.input_is_consistent (cid : String) (ty : InputType) (opt : Bool)
    (mc : Nat) (ti : TaskInput) : Except PyError (Bool × TaskInput) :=
  match alookup ti cid with
  | none => .ok (false, ti)
  | some v =>
    if mc ≠ 0 then
      match pyLen v with
      | .error e => .error e
      | .ok n =>
        if n > mc then .ok (false, ti)
        else inputEmptyBlock cid ty opt ti v
    else inputEmptyBlock cid ty opt ti v

/-- The empty-answer handling of MultilineBox.input_is_consistent:
unlike InputBox, no try/except protects this len() call. -/
def multilineEmpty (cid : String) (opt : Bool) (ti : TaskInput) (v : Value) :
    Except PyError (Bool × TaskInput) :=
  match pyLen v with
  | .error e => .error e
  | .ok n =>
    if n = 0 then
      if opt then .ok (true, tiSet ti cid (.str ""))
      else .ok (false, ti)
    else .ok (true, ti)

/-- MultilineBox.input_is_consistent: presence, maxChars bound, then
empty-answer handling; neither len() call is guarded, so a mapped
value without a length raises. -/
def MultilineBox.input_is_consistent (cid : String) (opt : Bool) (mc : Nat)
    (ti : TaskInput) : Except PyError (Bool × TaskInput) :=
  match alookup ti cid with
  | none => .ok (false, ti)
  | some v =>
    if mc ≠ 0 then
      match pyLen v with
      | .error e => .error e
      | .ok n =>
        if n > mc then .ok (false, ti)
        else multilineEmpty cid opt ti v
    else multilineEmpty cid opt ti v

/-- Dispatch of input_is_consistent over the box variants. -/
def Box.input_is_consistent (b : Box) (ti : TaskInput) (dfltExts : List String)
    (dfltMax : Int) : Except PyError (Bool × TaskInput) :=
  match b.kind with
  | .text _ => .ok (TextBox.input_is_consistent ti, ti)
  | .file aexts msize =>
    .ok (FileBox.input_is_consistent b.completeId aexts msize ti dfltExts dfltMax, ti)
  | .input ty opt mc => InputBox.input_is_consistent b.completeId ty opt mc ti
  | .multiline mc opt _ _ => MultilineBox.input_is_consistent b.completeId opt mc ti

/-- CustomProblem.input_is_consistent: return False at the first box
whose check fails, True when every box passes. -/
def CustomProblem.input_is_consistent (boxes : List Box) (ti : TaskInput)
    (dfltExts : List String) (dfltMax : Int) : Except PyError (Bool × TaskInput) :=
  match boxes with
  | [] => .ok (true, ti)
  | b :: rest =>
    match b.input_is_consistent ti dfltExts dfltMax with
    | .error e => .error e
    | .ok (false, ti2) => .ok (false, ti2)
    | .ok (true, ti2) => CustomProblem.input_is_consistent rest ti2 dfltExts dfltMax

/-!  ## Input adaptation -/

/-- DisplayableFileBox.adapt_input_for_backend: reshape the uploaded
file object into a filename/value record; any failure (missing entry,
or an entry without the attributes) stores an empty record instead. -/
def DisplayableFileBox.adapt (cid : String) (ti : TaskInput) : TaskInput :=
  match alookup ti cid with
  | some (.upload fn payload) =>
    tiSet ti cid (.dict [("filename", fn), ("value", payload)])
  | _ => tiSet ti cid (.dict [])

/-- DisplayableBox.adapt_input_for_backend: the identity for every
variant except the file box, which overrides it. -/
def Box.adapt_input_for_backend (b : Box) (ti : TaskInput) : TaskInput :=
  match b.kind with
  | .file _ _ => DisplayableFileBox.adapt b.completeId ti
  | _ => ti

/-- DisplayableCustomProblem.adapt_input_for_backend: thread the
mapping through each box in declaration order. -/
def DisplayableCustomProblem.adapt (boxes : List Box) (ti : TaskInput) : TaskInput :=
  boxes.foldl (fun acc b => b.adapt_input_for_backend acc) ti

/-!  ## Auxiliary predicates and lemmas -/

/-- The submitted value for a key, when present, is a string — the
shape the web form layer actually delivers for text-like fields. -/
def stringValued (ti : TaskInput) (cid : String) : Prop :=
  ∀ v, alookup ti cid = some v → ∃ s, v = Value.str s

/-- Box shapes whose consistency check contains no unguarded len()
call: text and file boxes, and input boxes without a maxChars bound. -/
def neverRaises (b : Box) : Prop :=
  match b.kind with
  | .text _ => True
  | .file _ _ => True
  | .input _ _ mc => mc = 0
  | .multiline _ _ _ _ => False

theorem alookup_tiSet_self (ti : TaskInput) (k : String) (v : Value) :
    alookup (tiSet ti k v) k = some v := by
  induction ti with
  | nil => simp [tiSet, alookup]
  | cons p rest ih =>
    obtain ⟨k2, w⟩ := p
    by_cases h : k2 = k
    · simp [tiSet, h, alookup]
    · simp [tiSet, h, alookup, ih]

theorem alookup_tiSet_ne (ti : TaskInput) (k k2 : String) (v : Value)
    (h : k2 ≠ k) : alookup (tiSet ti k v) k2 = alookup ti k2 := by
  have h2 : ¬(k = k2) := fun he => h he.symm
  induction ti with
  | nil => simp [tiSet, alookup, h2]
  | cons p rest ih =>
    obtain ⟨k3, w⟩ := p
    by_cases h3 : k3 = k
    · subst h3
      simp [tiSet, alookup, h2]
    · simp only [tiSet, if_neg h3]
      by_cases h4 : k3 = k2
      · simp [alookup, h4]
      · simp [alookup, h4, ih]

theorem inputEmptyBlock_ok (cid : String) (ty : InputType) (opt : Bool)
    (ti : TaskInput) (v : Value) :
    ∃ r, inputEmptyBlock cid ty opt ti v = .ok r := by
  unfold inputEmptyBlock
  rcases pyLen v with e | n
  · exact ⟨_, rfl⟩
  · by_cases hn : n = 0 <;> by_cases ho : opt <;> simp [hn, ho]

theorem multilineEmpty_str (cid : String) (opt : Bool) (ti : TaskInput)
    (s : String) : ∃ r, multilineEmpty cid opt ti (.str s) = .ok r := by
  unfold multilineEmpty
  simp only [pyLen]
  by_cases hn : s.length = 0 <;> by_cases ho : opt <;> simp [hn, ho]

/-- C1: corrected.  For text boxes, file boxes, and input boxes whose
maxChars is 0, input_is_consistent returns a boolean verdict whatever
the shape of the mapped values; for every variant it does so when the
mapped value for the composite id, if present, is a string.  (The
unamended claim is false: see claim1_counterexample.) -/
theorem claim1_exception_containment (b : Box) (ti : TaskInput)
    (dfltExts : List String) (dfltMax : Int)
    (h : neverRaises b ∨ stringValued ti b.completeId) :
    ∃ r, Box.input_is_consistent b ti dfltExts dfltMax = .ok r := by
  unfold Box.input_is_consistent
  rcases hk : b.kind with c | ⟨ae, ms⟩ | ⟨ty, opt, mc⟩ | ⟨mc, opt, l, lang⟩ <;> dsimp only
  · exact ⟨_, rfl⟩
  · exact ⟨_, rfl⟩
  · unfold InputBox.input_is_consistent
    rcases hl : alookup ti b.completeId with _ | v <;> dsimp only
    · exact ⟨_, rfl⟩
    · rcases h with hn | hs
      · simp only [neverRaises, hk] at hn
        simp only [hn, ne_eq, not_true_eq_false, if_false]
        exact inputEmptyBlock_ok _ _ _ _ _
      · obtain ⟨s, rfl⟩ := hs v hl
        by_cases hmc : mc ≠ 0
        · rw [if_pos hmc]
          simp only [pyLen]
          by_cases hgt : s.length > mc
          · rw [if_pos hgt]
            exact ⟨_, rfl⟩
          · rw [if_neg hgt]
            exact inputEmptyBlock_ok _ _ _ _ _
        · rw [if_neg hmc]
          exact inputEmptyBlock_ok _ _ _ _ _
  · unfold MultilineBox.input_is_consistent
    rcases hl : alookup ti b.completeId with _ | v <;> dsimp only
    · exact ⟨_, rfl⟩
    · rcases h with hn | hs
      · simp only [neverRaises, hk] at hn
      · obtain ⟨s, rfl⟩ := hs v hl
        by_cases hmc : mc ≠ 0
        · rw [if_pos hmc]
          simp only [pyLen]
          by_cases hgt : s.length > mc
          · rw [if_pos hgt]
            exact ⟨_, rfl⟩
          · rw [if_neg hgt]
            exact multilineEmpty_str _ _ _ _
        · rw [if_neg hmc]
          exact multilineEmpty_str _ _ _ _

/-- C1 witness: a multiline box over a string-valued submission. -/
theorem claim1_witness :
    ∃ r, Box.input_is_consistent (Box.mk "q" "ml" (.multiline 0 false 8 "plain"))
        [("q/ml", Value.str "hello")] [] 0 = .ok r := by
  apply claim1_exception_containment
  refine Or.inr ?_
  intro v hv
  refine ⟨"hello", ?_⟩
  have hcid : Box.completeId (Box.mk "q" "ml" (.multiline 0 false 8 "plain")) = "q/ml" := rfl
  rw [hcid] at hv
  simp [alookup] at hv
  exact hv.symm

/-- C1 counterexample: a multiline box whose mapped value is an int
makes input_is_consistent raise a TypeError that escapes (so the
original claim, which promises a boolean for every value shape and
every variant, is false). -/
theorem claim1_counterexample :
    Box.input_is_consistent (Box.mk "q" "ml" (.multiline 0 false 8 "plain"))
      [("q/ml", Value.int 5)] [] 0 = .error .typeError := rfl

/-!  ## Problem-level conjunction and short-circuit (C3) -/

/-- Thread the submission mapping through a run of boxes all of whose
checks report consistent; none when any of them reports false or
raises. -/
def runAllOk (boxes : List Box) (ti : TaskInput) (dfltExts : List String)
    (dfltMax : Int) : Option TaskInput :=
  match boxes with
  | [] => some ti
  | b :: rest =>
    match b.input_is_consistent ti dfltExts dfltMax with
    | .ok (true, ti2) => runAllOk rest ti2 dfltExts dfltMax
    | _ => none

theorem problem_check_after_run (dfltExts : List String) (dfltMax : Int) :
    ∀ (pre : List Box) (ti s : TaskInput),
      runAllOk pre ti dfltExts dfltMax = some s →
      ∀ (mid post : List Box),
        CustomProblem.input_is_consistent (pre ++ mid ++ post) ti dfltExts dfltMax =
          CustomProblem.input_is_consistent (mid ++ post) s dfltExts dfltMax := by
  intro pre
  induction pre with
  | nil =>
    intro ti s hrun mid post
    simp only [runAllOk, Option.some.injEq] at hrun
    rw [hrun]
    simp
  | cons b rest ih =>
    intro ti s hrun mid post
    simp only [runAllOk] at hrun
    rcases hb : b.input_is_consistent ti dfltExts dfltMax with e | ⟨verdict, ti2⟩ <;>
      rw [hb] at hrun
    · exact absurd hrun (by simp)
    · rcases verdict with _ | _
      · exact absurd hrun (by simp)
      · simp only [List.cons_append, CustomProblem.input_is_consistent, hb]
        exact ih ti2 s hrun mid post

theorem problem_check_fail_at (dfltExts : List String) (dfltMax : Int)
    (pre : List Box) (ti s s2 : TaskInput) (b : Box) (post : List Box)
    (hrun : runAllOk pre ti dfltExts dfltMax = some s)
    (hfail : Box.input_is_consistent b s dfltExts dfltMax = .ok (false, s2)) :
    CustomProblem.input_is_consistent (pre ++ b :: post) ti dfltExts dfltMax =
      .ok (false, s2) := by
  have h := problem_check_after_run dfltExts dfltMax pre ti s hrun [b] post
  rw [List.append_assoc, List.singleton_append] at h
  rw [h]
  simp only [CustomProblem.input_is_consistent, hfail]

theorem problem_check_false_decompose (dfltExts : List String) (dfltMax : Int) :
    ∀ (boxes : List Box) (ti t : TaskInput),
      CustomProblem.input_is_consistent boxes ti dfltExts dfltMax = .ok (false, t) →
      ∃ pre b post s,
        boxes = pre ++ b :: post ∧ runAllOk pre ti dfltExts dfltMax = some s ∧
          Box.input_is_consistent b s dfltExts dfltMax = .ok (false, t) := by
  intro boxes
  induction boxes with
  | nil =>
    intro ti t h
    exact absurd h (by simp [CustomProblem.input_is_consistent])
  | cons b rest ih =>
    intro ti t h
    simp only [CustomProblem.input_is_consistent] at h
    rcases hb : b.input_is_consistent ti dfltExts dfltMax with e | ⟨verdict, ti2⟩ <;>
      rw [hb] at h
    · exact absurd h (by simp)
    · rcases verdict with _ | _
      · simp only [Except.ok.injEq, Prod.mk.injEq, true_and] at h
        exact ⟨[], b, rest, ti, by simp, by simp [runAllOk], by rw [hb, h]⟩
      · obtain ⟨pre, b2, post, s, hsplit, hrun, hfail⟩ := ih ti2 t h
        refine ⟨b :: pre, b2, post, s, by simp [hsplit], ?_, hfail⟩
        simp only [runAllOk, hb]
        exact hrun

/-- C3: the problem-level check returns false exactly when, threading
the submission through the boxes in declaration order, some box is
reached whose own check returns false; and the verdict and final
mapping are those produced at that box, whatever boxes follow it
(their optional-field defaulting never runs). -/
theorem claim3_conjunction_short_circuit (boxes : List Box) (ti : TaskInput)
    (dfltExts : List String) (dfltMax : Int) :
    ((∃ t, CustomProblem.input_is_consistent boxes ti dfltExts dfltMax = .ok (false, t)) ↔
      (∃ pre b post s t, boxes = pre ++ b :: post ∧
        runAllOk pre ti dfltExts dfltMax = some s ∧
        Box.input_is_consistent b s dfltExts dfltMax = .ok (false, t))) ∧
    (∀ (pre : List Box) (b : Box) (post post2 : List Box) (s t : TaskInput),
      runAllOk pre ti dfltExts dfltMax = some s →
      Box.input_is_consistent b s dfltExts dfltMax = .ok (false, t) →
      CustomProblem.input_is_consistent (pre ++ b :: post) ti dfltExts dfltMax =
        CustomProblem.input_is_consistent (pre ++ b :: post2) ti dfltExts dfltMax) := by
  constructor
  · constructor
    · rintro ⟨t, h⟩
      obtain ⟨pre, b, post, s, hsplit, hrun, hfail⟩ :=
        problem_check_false_decompose dfltExts dfltMax boxes ti t h
      exact ⟨pre, b, post, s, t, hsplit, hrun, hfail⟩
    · rintro ⟨pre, b, post, s, t, hsplit, hrun, hfail⟩
      subst hsplit
      exact ⟨t, problem_check_fail_at dfltExts dfltMax pre ti s t b post hrun hfail⟩
  · intro pre b post post2 s t hrun hfail
    rw [problem_check_fail_at dfltExts dfltMax pre ti s t b post hrun hfail,
      problem_check_fail_at dfltExts dfltMax pre ti s t b post2 hrun hfail]

/-- C3 witness: a passing text box followed by a failing input box
short-circuits identically whatever box is appended after it. -/
theorem claim3_witness :
    CustomProblem.input_is_consistent
        [Box.mk "p" "t" (.text (.str "title")), Box.mk "p" "a" (.input .text false 0)]
        [] [] 0 =
      CustomProblem.input_is_consistent
        [Box.mk "p" "t" (.text (.str "title")), Box.mk "p" "a" (.input .text false 0),
          Box.mk "p" "z" (.multiline 0 true 8 "plain")]
        [] [] 0 := by
  have h := (claim3_conjunction_short_circuit
    [Box.mk "p" "t" (.text (.str "title")), Box.mk "p" "a" (.input .text false 0)]
    [] [] 0).2 [Box.mk "p" "t" (.text (.str "title"))]
    (Box.mk "p" "a" (.input .text false 0)) []
    [Box.mk "p" "z" (.multiline 0 true 8 "plain")] [] [] (by rfl) (by rfl)
  simpa using h

/-!  ## Input-box validation facts (C4, C9) -/

theorem inputParseChecks_default (cid : String) (ty : InputType) (ti : TaskInput)
    (h : alookup ti cid = some (.str ty.defaultValue)) :
    inputParseChecks cid ty ti = true := by
  cases ty <;>
    simp only [inputParseChecks, h, InputType.defaultValue, pyInt, pyFloat] <;> rfl

/-- C4: an Input box with optional set accepts an empty submitted
value and rewrites that entry in place to the subtype default — ""
for text, "0" for integer, "0.0" for decimal — while with optional
unset an empty value is rejected with the mapping untouched. -/
theorem claim4_optional_empty_default (pid bid : String) (ty : InputType)
    (mc : Nat) (dfltExts : List String) (dfltMax : Int) :
    (∀ ti : TaskInput,
      alookup ti (Box.completeId (Box.mk pid bid (.input ty true mc))) = some (.str "") →
      Box.input_is_consistent (Box.mk pid bid (.input ty true mc)) ti dfltExts dfltMax =
        .ok (true, tiSet ti (Box.completeId (Box.mk pid bid (.input ty true mc)))
          (.str ty.defaultValue))) ∧
    (∀ ti : TaskInput,
      alookup ti (Box.completeId (Box.mk pid bid (.input ty false mc))) = some (.str "") →
      Box.input_is_consistent (Box.mk pid bid (.input ty false mc)) ti dfltExts dfltMax =
        .ok (false, ti)) ∧
    InputType.defaultValue .text = "" ∧ InputType.defaultValue .integer = "0" ∧
      InputType.defaultValue .decimal = "0.0" := by
  refine ⟨?_, ?_, rfl, rfl, rfl⟩ <;> intro ti h <;>
  · simp only [Box.input_is_consistent, InputBox.input_is_consistent, h]
    have hcid : Box.completeId (Box.mk pid bid (.input ty true mc)) =
        Box.completeId (Box.mk pid bid (.input ty false mc)) := rfl
    have hemp : inputEmptyBlock (Box.completeId (Box.mk pid bid (.input ty true mc)))
        ty true ti (.str "") =
        .ok (true, tiSet ti (Box.completeId (Box.mk pid bid (.input ty true mc)))
          (.str ty.defaultValue)) := by
      simp only [inputEmptyBlock, pyLen, String.length_empty, if_pos rfl, if_pos trivial]
      rw [inputParseChecks_default _ _ _ (alookup_tiSet_self _ _ _)]
    have hemp2 : inputEmptyBlock (Box.completeId (Box.mk pid bid (.input ty true mc)))
        ty false ti (.str "") = .ok (false, ti) := by
      simp [inputEmptyBlock, pyLen]
    by_cases hmc : mc ≠ 0 <;>
      simp only [hmc, reduceIte, pyLen, String.length_empty, gt_iff_lt,
        Nat.not_lt_zero, if_false, ← hcid, hemp, hemp2] <;>
      first
      | rfl
      | (split <;> rfl)

/-- C4 witness: an optional integer input box with an empty answer. -/
theorem claim4_witness :
    Box.input_is_consistent (Box.mk "p" "b" (.input .integer true 0))
        [("p/b", Value.str "")] [] 0 =
      .ok (true, [("p/b", Value.str "0")]) := by
  have h := (claim4_optional_empty_default "p" "b" .integer 0 [] 0).1
    [("p/b", Value.str "")] (by simp [alookup, Box.completeId])
  simpa [tiSet, Box.completeId] using h

/-- C9: an integer input box whose submitted value is the string 12.5
(which fits any maxChars limit in force) rejects the submission, as
the value does not parse as an integer. -/
theorem claim9_integer_rejects_decimal (pid bid : String) (opt : Bool) (mc : Nat)
    (dfltExts : List String) (dfltMax : Int) (ti : TaskInput)
    (hmc : mc = 0 ∨ 4 ≤ mc)
    (h : alookup ti (Box.completeId (Box.mk pid bid (.input .integer opt mc))) =
      some (.str "12.5")) :
    Box.input_is_consistent (Box.mk pid bid (.input .integer opt mc)) ti dfltExts dfltMax =
      .ok (false, ti) := by
  simp only [Box.input_is_consistent, InputBox.input_is_consistent, h]
  have hlen : ("12.5" : String).length = 4 := rfl
  have hparse : inputParseChecks (Box.completeId (Box.mk pid bid (.input .integer opt mc)))
      .integer ti = false := by
    simp only [inputParseChecks, h, pyInt]
    have : pyIntOfString "12.5" = none := by decide
    rw [this]
  have hemp : inputEmptyBlock (Box.completeId (Box.mk pid bid (.input .integer opt mc)))
      .integer opt ti (.str "12.5") = .ok (false, ti) := by
    simp only [inputEmptyBlock, pyLen, hlen]
    norm_num
    rw [hparse]
  rcases hmc with h0 | h4
  · subst h0
    rw [if_neg (by simp)]
    exact hemp
  · have hne : mc ≠ 0 := by omega
    have hnotgt : ¬(("12.5" : String).length > mc) := by
      rw [hlen]; omega
    rw [if_pos hne]
    simp only [pyLen]
    rw [if_neg hnotgt]
    exact hemp

/-- C9 witness: the concrete rejection at maxChars 0. -/
theorem claim9_witness :
    Box.input_is_consistent (Box.mk "p" "b" (.input .integer false 0))
        [("p/b", Value.str "12.5")] [] 0 = .ok (false, [("p/b", Value.str "12.5")]) :=
  claim9_integer_rejects_decimal "p" "b" false 0 [] 0 [("p/b", Value.str "12.5")]
    (Or.inl rfl) (by simp [alookup, Box.completeId])


/-!  ## File-box validation facts (C5, C10) -/

theorem extsOfJson_map (l : List String) :
    extsOfJson (l.map Json.str) = .ok l := by
  induction l with
  | nil => rfl
  | cons x rest ih => simp [extsOfJson, ih]

theorem fileEffectiveExts_nonempty (l dflt : List String) (h : l ≠ []) :
    fileEffectiveExts (some (.arr (l.map Json.str))) dflt = .ok l := by
  cases l with
  | nil => exact absurd rfl h
  | cons x rest =>
    simp only [fileEffectiveExts, Json.truthy, List.map_cons, List.isEmpty_cons,
      Bool.not_false, if_true]
    have := extsOfJson_map (x :: rest)
    simpa using this

theorem fileEffectiveExts_inline (l : List String) :
    fileEffectiveExts (some (.arr (l.map Json.str))) l = .ok l := by
  cases hl : l with
  | nil => rfl
  | cons x rest => exact fileEffectiveExts_nonempty _ _ (by simp)

theorem fileEffectiveMax_inline (m : Int) :
    fileEffectiveMax (some (.num m)) m = .ok m := by
  by_cases h : m = 0
  · subst h
    rfl
  · simp [fileEffectiveMax, Json.truthy, h, Json.asPyInt]

theorem fileTryBlock_eval (cid f : String) (pl : Value) (aexts msize : Option Json)
    (ti : TaskInput) (dfltExts : List String) (dfltMax : Int)
    (exts : List String) (mx : Int)
    (hlook : alookup ti cid = some (.dict [("filename", .str f), ("value", pl)]))
    (hexts : fileEffectiveExts aexts dfltExts = .ok exts)
    (hmax : fileEffectiveMax msize dfltMax = .ok mx) :
    fileTryBlock cid aexts msize ti dfltExts dfltMax =
      .ok (if exts.any (fun x => pyEndsWith f x) then
            (if (getsizeof pl : Int) > mx then false else true)
          else false) := by
  have hfn : getItem (Value.dict [("filename", .str f), ("value", pl)]) "filename" =
      .ok (.str f) := rfl
  have hpl : getItem (Value.dict [("filename", .str f), ("value", pl)]) "value" =
      .ok pl := rfl
  simp only [fileTryBlock, hlook, hfn, hpl, hexts, hmax]
  cases hany : exts.any (fun x => pyEndsWith f x)
  · simp [hany]
  · by_cases hgt : (getsizeof pl : Int) > mx <;> simp [hany, hgt]

/-- C5: the documented file-box behaviour — with allowed_exts zip and
max_size 1000 a 900-byte a.zip passes, a 1500-byte a.zip fails on
size, a 10-byte a.exe fails on its suffix; an empty or absent
box-level extension list and an unset max_size behave exactly as a box
configured with the caller-supplied defaults. -/
theorem claim5_file_box_checks (dfltExts : List String) (dfltMax : Int) :
    FileBox.input_is_consistent "p" (some (.arr [.str "zip"])) (some (.num 1000))
        [("p", .dict [("filename", .str "a.zip"), ("value", .bytes 900)])]
        dfltExts dfltMax = true ∧
    FileBox.input_is_consistent "p" (some (.arr [.str "zip"])) (some (.num 1000))
        [("p", .dict [("filename", .str "a.zip"), ("value", .bytes 1500)])]
        dfltExts dfltMax = false ∧
    FileBox.input_is_consistent "p" (some (.arr [.str "zip"])) (some (.num 1000))
        [("p", .dict [("filename", .str "a.exe"), ("value", .bytes 10)])]
        dfltExts dfltMax = false ∧
    (∀ (cid : String) (ti : TaskInput),
      FileBox.input_is_consistent cid (some (.arr [])) none ti dfltExts dfltMax =
        FileBox.input_is_consistent cid none none ti dfltExts dfltMax) ∧
    (∀ (cid : String) (ti : TaskInput),
      FileBox.input_is_consistent cid none none ti dfltExts dfltMax =
        FileBox.input_is_consistent cid (some (.arr (dfltExts.map Json.str)))
          (some (.num dfltMax)) ti dfltExts dfltMax) := by
  refine ⟨?_, ?_, ?_, fun cid ti => rfl, fun cid ti => ?_⟩
  · have h := fileTryBlock_eval "p" "a.zip" (.bytes 900)
      (some (.arr [.str "zip"])) (some (.num 1000))
      [("p", .dict [("filename", .str "a.zip"), ("value", .bytes 900)])]
      dfltExts dfltMax ["zip"] 1000 rfl
      (fileEffectiveExts_nonempty ["zip"] dfltExts (by simp)) rfl
    simp only [FileBox.input_is_consistent, basic_consistent, h]
    decide
  · have h := fileTryBlock_eval "p" "a.zip" (.bytes 1500)
      (some (.arr [.str "zip"])) (some (.num 1000))
      [("p", .dict [("filename", .str "a.zip"), ("value", .bytes 1500)])]
      dfltExts dfltMax ["zip"] 1000 rfl
      (fileEffectiveExts_nonempty ["zip"] dfltExts (by simp)) rfl
    simp only [FileBox.input_is_consistent, basic_consistent, h]
    decide
  · have h := fileTryBlock_eval "p" "a.exe" (.bytes 10)
      (some (.arr [.str "zip"])) (some (.num 1000))
      [("p", .dict [("filename", .str "a.exe"), ("value", .bytes 10)])]
      dfltExts dfltMax ["zip"] 1000 rfl
      (fileEffectiveExts_nonempty ["zip"] dfltExts (by simp)) rfl
    simp only [FileBox.input_is_consistent, basic_consistent, h]
    decide
  · simp only [FileBox.input_is_consistent, fileTryBlock, fileEffectiveExts_inline,
      fileEffectiveMax_inline]
    rfl

/-- C10: the extension check of a file box with a nonempty
allowed-extension list is a plain suffix test — no dot separator is
required — so any filename merely ending with one of the extension
strings passes it, and the whole check succeeds when the size fits. -/
theorem claim10_suffix_no_dot (cid f e : String) (exts : List String) (n : Nat)
    (ti : TaskInput) (dfltExts : List String) (dfltMax : Int)
    (hmem : e ∈ exts) (hsuffix : pyEndsWith f e = true)
    (hlook : alookup ti cid = some (.dict [("filename", .str f), ("value", .bytes n)]))
    (hsize : (33 + n : Int) ≤ dfltMax) :
    FileBox.input_is_consistent cid (some (.arr (exts.map Json.str))) none
      ti dfltExts dfltMax = true := by
  have hne : exts ≠ [] := by rintro rfl; exact absurd hmem (List.not_mem_nil e)
  have hblock := fileTryBlock_eval cid f (.bytes n) (some (.arr (exts.map Json.str)))
    none ti dfltExts dfltMax exts dfltMax hlook
    (fileEffectiveExts_nonempty exts dfltExts hne) rfl
  have hany : exts.any (fun x => pyEndsWith f x) = true :=
    List.any_eq_true.mpr ⟨e, hmem, hsuffix⟩
  have hnogt : ¬((getsizeof (.bytes n) : Int) > dfltMax) := by
    simp only [getsizeof]
    push_cast
    omega
  rw [hany, if_pos rfl, if_neg hnogt] at hblock
  simp only [FileBox.input_is_consistent, basic_consistent, hlook, Option.isSome_some,
    Bool.not_true, if_false, hblock]
  rfl

/-- C10 witness: reportzip passes with allowed_exts zip although zip
is not its dot-separated extension. -/
theorem claim10_witness :
    FileBox.input_is_consistent "p" (some (.arr [.str "zip"])) none
      [("p", .dict [("filename", .str "reportzip"), ("value", .bytes 10)])]
      [] 1000 = true :=
  claim10_suffix_no_dot "p" "reportzip" "zip" ["zip"] 10 _ [] 1000
    (by simp) (by decide) (by simp [alookup]) (by norm_num)

/-!  ## Construction facts (C2, C7) -/

theorem init_boxes_go_empty_id (problemId : String) :
    ∀ members : List (String × Json), "" ∈ members.map Prod.fst →
      ∃ e, init_boxes_go problemId members = .error e := by
  intro members
  induction members with
  | nil => simp
  | cons p rest ih =>
    obtain ⟨boxid, bc⟩ := p
    intro hmem
    by_cases hid : boxid = ""
    · exact ⟨"Empty box ids are not allowed", by simp [init_boxes_go, hid]⟩
    · have htail : "" ∈ rest.map Prod.fst := by
        simpa [hid, Ne.symm hid] using hmem
      obtain ⟨e, he⟩ := ih htail
      simp only [init_boxes_go, hid, if_false]
      rcases hc : create_box problemId boxid bc with e2 | b
      · exact ⟨e2, rfl⟩
      · rw [he]
        exact ⟨e, rfl⟩

/-- C2: corrected.  Constructing a problem whose box mapping contains
a box with the empty-string id always fails: although the
identifier-charset check inside _create_box exempts the empty string,
_init_boxes rejects empty box ids before any box is created, so no
box of a problem may use the empty id.  (The original claim, that such
a construction succeeds, is refuted by claim2_counterexample.) -/
theorem claim2_empty_id_rejected (problemId : String)
    (content : List (String × Json)) (members : List (String × Json))
    (hboxes : alookup content "boxes" = some (.obj members))
    (hempty : "" ∈ members.map Prod.fst) :
    ∃ e, init_boxes problemId content = .error e := by
  simp only [init_boxes, hboxes]
  exact init_boxes_go_empty_id problemId members hempty

/-- C2 witness: a two-entry mapping whose second box id is empty. -/
theorem claim2_witness :
    ∃ e, init_boxes "p"
      [("boxes", .obj
        [("a", .obj [("type", .str "text"), ("content", .str "hi")]),
          ("", .obj [("type", .str "text"), ("content", .str "hi")])])] = .error e :=
  claim2_empty_id_rejected "p"
    [("boxes", .obj
      [("a", .obj [("type", .str "text"), ("content", .str "hi")]),
        ("", .obj [("type", .str "text"), ("content", .str "hi")])])]
    [("a", .obj [("type", .str "text"), ("content", .str "hi")]),
      ("", .obj [("type", .str "text"), ("content", .str "hi")])]
    (by simp [alookup]) (by simp)

/-- C2 counterexample: a problem whose mapping holds a single box with
the empty id raises the dedicated construction error, refuting the
claim that such a construction succeeds. -/
theorem claim2_counterexample :
    init_boxes "p" [("boxes", .obj [("", .obj [("type", .str "text"),
        ("content", .str "x")])])] =
      .error "Empty box ids are not allowed" := rfl

/-- C7: a multiline box declaring language c++ fails construction with
the invalid-language error, language cpp is accepted and stored, and
an absent or empty language field defaults to plain. -/
theorem claim7_multiline_language :
    create_box "p" "b" (.obj [("type", .str "multiline"), ("language", .str "c++")]) =
      .error "Invalid language c++" ∧
    create_box "p" "b" (.obj [("type", .str "multiline"), ("language", .str "cpp")]) =
      .ok (Box.mk "p" "b" (.multiline 0 false 8 "cpp")) ∧
    create_box "p" "b" (.obj [("type", .str "multiline")]) =
      .ok (Box.mk "p" "b" (.multiline 0 false 8 "plain")) ∧
    create_box "p" "b" (.obj [("type", .str "multiline"), ("language", .str "")]) =
      .ok (Box.mk "p" "b" (.multiline 0 false 8 "plain")) := by
  refine ⟨?_, ?_, ?_, ?_⟩ <;> rfl

/-!  ## Adaptation frame (C8) -/

theorem box_adapt_frame (b : Box) (ti : TaskInput) (k : String)
    (h : k ≠ b.completeId) :
    alookup (Box.adapt_input_for_backend b ti) k = alookup ti k := by
  unfold Box.adapt_input_for_backend
  rcases b.kind with c | ⟨ae, ms⟩ | ⟨ty, opt, mc⟩ | ⟨mc, opt, l, lang⟩ <;> dsimp only
  unfold DisplayableFileBox.adapt
  rcases alookup ti b.completeId with _ | v
  · exact alookup_tiSet_ne ti b.completeId k _ h
  · cases v <;> exact alookup_tiSet_ne ti b.completeId k _ h

/-- C8: threading a submission through adapt_input_for_backend box by
box touches at most the boxes' own composite-id entries and leaves
every other key with its original value; non-file boxes return the
mapping identically, and a file box whose entry cannot be reshaped
(because it is missing or carries no uploaded-file object) replaces
its entry with an empty record instead of raising. -/
theorem claim8_adapt_frame (boxes : List Box) (ti : TaskInput) :
    (∀ k, (∀ b ∈ boxes, k ≠ b.completeId) →
      alookup (DisplayableCustomProblem.adapt boxes ti) k = alookup ti k) ∧
    (∀ b : Box, (∀ ae ms, b.kind ≠ .file ae ms) →
      Box.adapt_input_for_backend b ti = ti) ∧
    (∀ (b : Box) (ae ms : Option Json), b.kind = .file ae ms →
      (∀ fn pl, alookup ti b.completeId ≠ some (.upload fn pl)) →
      alookup (Box.adapt_input_for_backend b ti) b.completeId = some (.dict [])) := by
  refine ⟨?_, ?_, ?_⟩
  · intro k
    induction boxes generalizing ti with
    | nil => intro _; rfl
    | cons b rest ih =>
      intro hk
      have hstep : alookup (Box.adapt_input_for_backend b ti) k = alookup ti k :=
        box_adapt_frame b ti k (hk b (by simp))
      have htail := ih (Box.adapt_input_for_backend b ti)
        (fun b2 hb2 => hk b2 (by simp [hb2]))
      simp only [DisplayableCustomProblem.adapt, List.foldl_cons] at htail ⊢
      rw [htail, hstep]
  · intro b hnf
    unfold Box.adapt_input_for_backend
    rcases hk : b.kind with c | ⟨ae, ms⟩ | ⟨ty, opt, mc⟩ | ⟨mc, opt, l, lang⟩ <;> dsimp only
    exact absurd hk (hnf ae ms)
  · intro b ae ms hk hnoupload
    unfold Box.adapt_input_for_backend
    rw [hk]
    unfold DisplayableFileBox.adapt
    rcases hl : alookup ti b.completeId with _ | v
    · exact alookup_tiSet_self ti b.completeId _
    · cases v with
      | upload fn pl => exact absurd hl (hnoupload fn pl)
      | str s => exact alookup_tiSet_self ti b.completeId _
      | int n => exact alookup_tiSet_self ti b.completeId _
      | bytes n => exact alookup_tiSet_self ti b.completeId _
      | dict entries => exact alookup_tiSet_self ti b.completeId _

/-- C8 witness: a file box over an empty mapping stores the empty
record under its own composite id. -/
theorem claim8_witness :
    alookup (Box.adapt_input_for_backend (Box.mk "p" "f" (.file none none)) [])
      (Box.completeId (Box.mk "p" "f" (.file none none))) = some (.dict []) :=
  (claim8_adapt_frame [] []).2.2 (Box.mk "p" "f" (.file none none)) none none rfl
    (fun _ _ h => Option.noConfusion h)

/-!  ## JSON text codec (C6)

CustomProblem.parse_problem feeds the boxes field through json.loads.
The codec below models the Python library pair on the fragment the
plugin exchanges: objects, arrays, strings over printable ASCII
(escaping the quote and the backslash; \uXXXX escapes and raw control
characters are outside the fragment), integers, booleans and null.
json.dumps prints with its default separators, a comma-space between
entries and a colon-space after keys. -/

def charOk (c : Char) : Bool := 32 ≤ c.toNat && c.toNat ≤ 126

def strOk (s : String) : Bool := s.data.all charOk

/-- json.dumps escaping of one character of the modelled fragment. -/
def encChar (c : Char) : List Char :=
  if c = '"' then ['\\', '"'] else if c = '\\' then ['\\', '\\'] else [c]

def encStrBody : List Char → List Char
  | [] => []
  | c :: t => encChar c ++ encStrBody t

def encStr (s : String) : List Char := '"' :: (encStrBody s.data ++ ['"'])

def digitChar (n : Nat) : Char := Char.ofNat (48 + n)

def natChars (n : Nat) : List Char :=
  if n < 10 then [digitChar n]
  else natChars (n / 10) ++ [digitChar (n % 10)]
  decreasing_by exact Nat.div_lt_self (by omega) (by omega)

def intChars (n : Int) : List Char :=
  if n < 0 then '-' :: natChars n.natAbs else natChars n.natAbs

mutual
def serVal : Json → List Char
  | .str s => encStr s
  | .num n => intChars n
  | .bool b => if b then ['t', 'r', 'u', 'e'] else ['f', 'a', 'l', 's', 'e']
  | .null => ['n', 'u', 'l', 'l']
  | .arr items => '[' :: (serItems items ++ [']'])
  | .obj members => '{' :: (serMembers members ++ ['}'])

def serItems : List Json → List Char
  | [] => []
  | [x] => serVal x
  | x :: y :: rest => serVal x ++ ',' :: ' ' :: serItems (y :: rest)

def serMembers : List (String × Json) → List Char
  | [] => []
  | [(k, v)] => encStr k ++ ':' :: ' ' :: serVal v
  | (k, v) :: m :: rest =>
    encStr k ++ ':' :: ' ' :: serVal v ++ ',' :: ' ' :: serMembers (m :: rest)
end

/-!  Well-formedness of a value inside the modelled fragment: every
string, keys included, stays within printable ASCII. -/
mutual
def jsonWf : Json → Bool
  | .null => true
  | .bool _ => true
  | .num _ => true
  | .str s => strOk s
  | .arr items => itemsWf items
  | .obj members => membersWf members

def itemsWf : List Json → Bool
  | [] => true
  | x :: rest => jsonWf x && itemsWf rest

def membersWf : List (String × Json) → Bool
  | [] => true
  | (k, v) :: rest => strOk k && jsonWf v && membersWf rest
end

def isWsChar (c : Char) : Bool := c = ' ' || c = '\t' || c = '\n' || c = '\r'

def dropWs : List Char → List Char
  | [] => []
  | c :: rest => if isWsChar c then dropWs rest else c :: rest

/-- The inverse of the escape table (the json.loads escapes the
fragment can produce; \uXXXX is outside the fragment). -/
def escDecode (e : Char) : Option Char :=
  if e = '"' then some '"'
  else if e = '\\' then some '\\'
  else if e = '/' then some '/'
  else if e = 'n' then some '\n'
  else if e = 't' then some '\t'
  else if e = 'r' then some '\r'
  else if e = 'b' then some (Char.ofNat 8)
  else if e = 'f' then some (Char.ofNat 12)
  else none

/-- Decode a string body up to its closing quote; raw control
characters are rejected, as json.loads rejects them. -/
def decStrBody : List Char → Option (List Char × List Char)
  | [] => none
  | c :: rest =>
    if c = '"' then some ([], rest)
    else if c = '\\' then
      match rest with
      | [] => none
      | e :: rest2 =>
        match escDecode e with
        | none => none
        | some d =>
          match decStrBody rest2 with
          | none => none
          | some (cs, r) => some (d :: cs, r)
    else if c.toNat < 32 then none
    else
      match decStrBody rest with
      | none => none
      | some (cs, r) => some (c :: cs, r)

def grabDigits : List Char → List Char × List Char
  | [] => ([], [])
  | c :: rest =>
    if isAsciiDigit c then
      let (ds, r) := grabDigits rest
      (c :: ds, r)
    else ([], c :: rest)

def digitsNat (ds : List Char) : Nat :=
  ds.foldl (fun a c => a * 10 + (c.toNat - 48)) 0

mutual
def jparse : Nat → List Char → Option (Json × List Char)
  | 0, _ => none
  | fuel + 1, input =>
    match dropWs input with
    | [] => none
    | c :: rest =>
      if c = '"' then
        match decStrBody rest with
        | some (cs, r) => some (.str (String.mk cs), r)
        | none => none
      else if c = '{' then
        let rest2 := dropWs rest
        if rest2.head? = some '}' then some (.obj [], rest2.tail)
        else
          match jparseMembers fuel rest2 with
          | some (ms, r) => some (.obj ms, r)
          | none => none
      else if c = '[' then
        let rest2 := dropWs rest
        if rest2.head? = some ']' then some (.arr [], rest2.tail)
        else
          match jparseItems fuel rest2 with
          | some (xs, r) => some (.arr xs, r)
          | none => none
      else if c = '-' then
        match grabDigits rest with
        | ([], _) => none
        | (ds, r) => some (.num (-(digitsNat ds : Int)), r)
      else if isAsciiDigit c then
        match grabDigits (c :: rest) with
        | (ds, r) => some (.num (digitsNat ds), r)
      else if c = 't' then
        if rest.take 3 = ['r', 'u', 'e'] then some (.bool true, rest.drop 3) else none
      else if c = 'f' then
        if rest.take 4 = ['a', 'l', 's', 'e'] then some (.bool false, rest.drop 4)
        else none
      else if c = 'n' then
        if rest.take 3 = ['u', 'l', 'l'] then some (.null, rest.drop 3) else none
      else none

def jparseItems : Nat → List Char → Option (List Json × List Char)
  | 0, _ => none
  | fuel + 1, input =>
    match jparse fuel input with
    | none => none
    | some (x, r) =>
      match dropWs r with
      | ',' :: r2 =>
        match jparseItems fuel r2 with
        | some (xs, r3) => some (x :: xs, r3)
        | none => none
      | ']' :: r2 => some ([x], r2)
      | _ => none

def jparseMembers : Nat → List Char → Option (List (String × Json) × List Char)
  | 0, _ => none
  | fuel + 1, input =>
    match dropWs input with
    | [] => none
    | c :: rest =>
      if c = '"' then
        match decStrBody rest with
        | none => none
        | some (kcs, r1) =>
          match dropWs r1 with
          | ':' :: r2 =>
            match jparse fuel r2 with
            | none => none
            | some (v, r3) =>
              match dropWs r3 with
              | ',' :: r4 =>
                match jparseMembers fuel r4 with
                | some (ms, r5) => some ((String.mk kcs, v) :: ms, r5)
                | none => none
              | '}' :: r4 => some ([(String.mk kcs, v)], r4)
              | _ => none
          | _ => none
      else none
end

def jsonDumps (j : Json) : String := String.mk (serVal j)

def jsonLoads (s : String) : Except String Json :=
  match jparse (s.length + 1) s.data with
  | some (j, r) => if dropWs r = [] then .ok j else .error "Extra data"
  | none => .error "Expecting value"

/-- The task-definition fields parse_problem consumes: the boxes field
as stored, a JSON text. -/
structure RawProblemContent where
  boxes : String

/-- The same content after parse_problem: the boxes field decoded. -/
structure ParsedProblemContent where
  boxes : Json

/-- CustomProblem.parse_problem.  The base-class Problem.parse_problem
it first applies lives in the host framework (outside this
repository); the spec scopes it out, and it is modelled as the
identity on the content.  The boxes field is then decoded in place,
any decoding failure being replaced by the fatal parse error. -/
def parse_problem (c : RawProblemContent) : Except String ParsedProblemContent :=
  match jsonLoads c.boxes with
  | .ok j => .ok ⟨j⟩
  | .error _ => .error "Invalid JSON in boxes content"

/-!  ## Codec round-trip: lexical lemmas -/

/-- True when the input does not continue a number: the shapes that
may legally follow a serialized value. -/
def headNotDigit : List Char → Bool
  | [] => true
  | c :: _ => !isAsciiDigit c

theorem dropWs_cons (c : Char) (t : List Char) (h : isWsChar c = false) :
    dropWs (c :: t) = c :: t := by
  simp [dropWs, h]

theorem jparse_space (fuel : Nat) (x : List Char) :
    jparse fuel (' ' :: x) = jparse fuel x := by
  cases fuel with
  | zero => rfl
  | succ f => simp [jparse, dropWs, isWsChar]

theorem jparseItems_space (fuel : Nat) (x : List Char) :
    jparseItems fuel (' ' :: x) = jparseItems fuel x := by
  cases fuel with
  | zero => rfl
  | succ f => simp only [jparseItems, jparse_space]

theorem jparseMembers_space (fuel : Nat) (x : List Char) :
    jparseMembers fuel (' ' :: x) = jparseMembers fuel x := by
  cases fuel with
  | zero => rfl
  | succ f => simp [jparseMembers, dropWs, isWsChar]

theorem decStrBody_enc : ∀ (cs r : List Char), (∀ c ∈ cs, charOk c = true) →
    decStrBody (encStrBody cs ++ '"' :: r) = some (cs, r) := by
  intro cs
  induction cs with
  | nil =>
    intro r _
    rw [encStrBody]
    rw [decStrBody.eq_def]
    simp
  | cons c t ih =>
    intro r hok
    have hc : charOk c = true := hok c (by simp)
    have ht : ∀ x ∈ t, charOk x = true := fun x hx => hok x (by simp [hx])
    by_cases h1 : c = '"'
    · subst h1
      rw [encStrBody, encChar]
      simp only [if_pos rfl, List.cons_append, List.append_assoc]
      rw [decStrBody.eq_def]
      simp [escDecode, ih r ht]
    · by_cases h2 : c = '\\'
      · subst h2
        rw [encStrBody, encChar]
        simp only [reduceIte, List.cons_append, List.append_assoc]
        rw [decStrBody.eq_def]
        simp [escDecode, ih r ht]
      · have h3 : ¬(c.toNat < 32) := by
          simp only [charOk, Bool.and_eq_true, decide_eq_true_eq] at hc
          omega
        rw [encStrBody, encChar, if_neg h1, if_neg h2]
        simp only [List.cons_append, List.nil_append]
        rw [decStrBody.eq_def]
        simp [h1, h2, h3, ih r ht]

theorem digitChar_isDigit (d : Nat) (h : d < 10) : isAsciiDigit (digitChar d) = true := by
  interval_cases d <;> decide

theorem digitChar_toNat (d : Nat) (h : d < 10) : (digitChar d).toNat = 48 + d := by
  interval_cases d <;> decide

theorem natChars_ne_nil (n : Nat) : natChars n ≠ [] := by
  unfold natChars
  split <;> simp

theorem natChars_cons (n : Nat) : ∃ d ds, natChars n = d :: ds := by
  cases h : natChars n with
  | nil => exact absurd h (natChars_ne_nil n)
  | cons d ds => exact ⟨d, ds, rfl⟩

theorem natChars_digits (n : Nat) : ∀ c ∈ natChars n, isAsciiDigit c = true := by
  induction n using Nat.strong_induction_on with
  | _ n ih =>
    unfold natChars
    split
    · next h =>
      intro c hc
      simp only [List.mem_singleton] at hc
      subst hc
      exact digitChar_isDigit n h
    · next h =>
      intro c hc
      simp only [List.mem_append, List.mem_singleton] at hc
      rcases hc with hc | hc
      · exact ih (n / 10) (Nat.div_lt_self (by omega) (by omega)) c hc
      · subst hc
        exact digitChar_isDigit (n % 10) (Nat.mod_lt _ (by omega))

theorem digitsNat_append (ds : List Char) (c : Char) :
    digitsNat (ds ++ [c]) = 10 * digitsNat ds + (c.toNat - 48) := by
  simp [digitsNat, List.foldl_append]
  omega

theorem digitsNat_natChars (n : Nat) : digitsNat (natChars n) = n := by
  induction n using Nat.strong_induction_on with
  | _ n ih =>
    unfold natChars
    split
    · next h =>
      simp [digitsNat, digitChar_toNat n h]
    · next h =>
      rw [digitsNat_append, ih (n / 10) (Nat.div_lt_self (by omega) (by omega)),
        digitChar_toNat (n % 10) (Nat.mod_lt _ (by omega))]
      omega

theorem grabDigits_exact : ∀ (ds r : List Char), (∀ c ∈ ds, isAsciiDigit c = true) →
    headNotDigit r = true → grabDigits (ds ++ r) = (ds, r) := by
  intro ds
  induction ds with
  | nil =>
    intro r _ hr
    cases r with
    | nil => rfl
    | cons c t =>
      simp only [headNotDigit, Bool.not_eq_true'] at hr
      simp [grabDigits, hr]
  | cons c t ih =>
    intro r hds hr
    have hc := hds c (by simp)
    have ht : ∀ x ∈ t, isAsciiDigit x = true := fun x hx => hds x (by simp [hx])
    simp [grabDigits, hc, ih r ht hr]

theorem ws_of_digit (c : Char) (h : isAsciiDigit c = true) : isWsChar c = false := by
  by_contra hcon
  rw [Bool.not_eq_false] at hcon
  simp only [isWsChar, Bool.or_eq_true, decide_eq_true_eq] at hcon
  rcases hcon with ((rfl | rfl) | rfl) | rfl <;> exact absurd h (by decide)

theorem digit_branches (c : Char) (h : isAsciiDigit c = true) :
    c ≠ '"' ∧ c ≠ '{' ∧ c ≠ '[' ∧ c ≠ '-' ∧ c ≠ ']' ∧ c ≠ '}' := by
  refine ⟨?_, ?_, ?_, ?_, ?_, ?_⟩ <;> (rintro rfl; exact absurd h (by decide))

theorem strMk_data (s : String) : String.mk s.data = s := rfl

theorem jparse_num (fuel : Nat) (m : Int) (r : List Char)
    (hr : headNotDigit r = true) :
    jparse (fuel + 1) (intChars m ++ r) = some (.num m, r) := by
  obtain ⟨d, ds, hnat⟩ := natChars_cons m.natAbs
  have hdig : ∀ c ∈ natChars m.natAbs, isAsciiDigit c = true := natChars_digits _
  have hgrab : grabDigits (natChars m.natAbs ++ r) = (natChars m.natAbs, r) :=
    grabDigits_exact _ r hdig hr
  have hval : digitsNat (d :: ds) = m.natAbs := by
    rw [← hnat, digitsNat_natChars]
  have hd : isAsciiDigit d = true := hdig d (by simp [hnat])
  obtain ⟨hne1, hne2, hne3, hne4, _, _⟩ := digit_branches d hd
  have hws : isWsChar d = false := ws_of_digit d hd
  rw [hnat] at hgrab
  by_cases hm : m < 0
  · rw [intChars, if_pos hm, hnat]
    simp only [jparse, List.cons_append]
    rw [dropWs_cons '-' _ (by decide)]
    simp only [List.cons_append] at hgrab
    simp [hgrab, (by decide : isAsciiDigit '-' = false)]
    omega
  · rw [intChars, if_neg hm, hnat]
    simp only [jparse, List.cons_append]
    rw [dropWs_cons d _ hws]
    simp only [List.cons_append] at hgrab
    simp [hgrab, hne1, hne2, hne3, hne4, hd, hval]
    omega

theorem headFlags_split (c : Char)
    (h : (isWsChar c || c = ']' || c = '}') = false) :
    isWsChar c = false ∧ c ≠ ']' ∧ c ≠ '}' := by
  simp only [Bool.or_eq_false_iff, decide_eq_false_iff_not] at h
  exact ⟨h.1.1, h.1.2, h.2⟩

theorem digit_head_ok (c : Char) (h : isAsciiDigit c = true) :
    (isWsChar c || c = ']' || c = '}') = false := by
  obtain ⟨_, _, _, _, h5, h6⟩ := digit_branches c h
  simp [ws_of_digit c h, h5, h6]

theorem serVal_head (j : Json) :
    ∃ c t, serVal j = c :: t ∧ (isWsChar c || c = ']' || c = '}') = false := by
  cases j with
  | str s =>
    exact ⟨'"', encStrBody s.data ++ ['"'], by simp [serVal, encStr], by decide⟩
  | num n =>
    by_cases hm : n < 0
    · exact ⟨'-', natChars n.natAbs, by simp [serVal, intChars, hm], by decide⟩
    · obtain ⟨d, ds, hnat⟩ := natChars_cons n.natAbs
      have hd : isAsciiDigit d = true := natChars_digits n.natAbs d (by simp [hnat])
      exact ⟨d, ds, by simp [serVal, intChars, hm, hnat], digit_head_ok d hd⟩
  | bool b =>
    cases b with
    | true => exact ⟨'t', ['r', 'u', 'e'], rfl, by decide⟩
    | false => exact ⟨'f', ['a', 'l', 's', 'e'], rfl, by decide⟩
  | null => exact ⟨'n', ['u', 'l', 'l'], rfl, by decide⟩
  | arr items =>
    exact ⟨'[', serItems items ++ [']'], by simp [serVal], by decide⟩
  | obj members =>
    exact ⟨'{', serMembers members ++ ['}'], by simp [serVal], by decide⟩

theorem serItems_head (e0 : Json) (es : List Json) :
    ∃ c t, serItems (e0 :: es) = c :: t ∧ (isWsChar c || c = ']' || c = '}') = false := by
  obtain ⟨c, t, hser, hflags⟩ := serVal_head e0
  cases es with
  | nil => exact ⟨c, t, by simp [serItems, hser], hflags⟩
  | cons e1 etl =>
    exact ⟨c, t ++ ',' :: ' ' :: serItems (e1 :: etl),
      by simp only [serItems, hser, List.cons_append], hflags⟩

theorem serMembers_head (ky : String) (vj : Json) (mtl : List (String × Json)) :
    ∃ t, serMembers ((ky, vj) :: mtl) = '"' :: t := by
  cases mtl with
  | nil =>
    exact ⟨encStrBody ky.data ++ ['"'] ++ ':' :: ' ' :: serVal vj,
      by simp [serMembers, encStr]⟩
  | cons m0 mtl2 =>
    exact ⟨encStrBody ky.data ++ ['"'] ++
        ':' :: ' ' :: (serVal vj ++ ',' :: ' ' :: serMembers (m0 :: mtl2)),
      by simp [serMembers, encStr]⟩

/-!  Each round-trip statement below consumes any run of fuel strictly
above the serialized length; a zero budget contradicts that bound, so
one catch-all equation dispatches it for every shape at once. -/

mutual
theorem jparse_ser : ∀ (j : Json) (fl : Nat) (tl : List Char),
    jsonWf j = true → (serVal j).length < fl → headNotDigit tl = true →
    jparse fl (serVal j ++ tl) = some (j, tl)
  | _, 0, _, _, hlt, _ => absurd hlt (Nat.not_lt_zero _)
  | .str s, fl + 1, tl, hjw, _, _ => by
    have hchars : ∀ c ∈ s.data, charOk c = true := by
      simpa only [jsonWf, strOk, List.all_eq_true, decide_eq_true_eq] using hjw
    have hdec := decStrBody_enc s.data tl hchars
    have hshape : serVal (.str s) ++ tl
        = '"' :: (encStrBody s.data ++ ('"' :: tl)) := by
      simp [serVal, encStr]
    rw [hshape]
    simp [jparse, dropWs, isWsChar, hdec, strMk_data]
  | .num m, fl + 1, tl, _, _, hnd => jparse_num fl m tl hnd
  | .bool true, fl + 1, tl, _, _, _ => by
    simp [serVal, jparse, dropWs, isWsChar, (by decide : isAsciiDigit 't' = false)]
  | .bool false, fl + 1, tl, _, _, _ => by
    simp [serVal, jparse, dropWs, isWsChar, (by decide : isAsciiDigit 'f' = false)]
  | .null, fl + 1, tl, _, _, _ => by
    simp [serVal, jparse, dropWs, isWsChar, (by decide : isAsciiDigit 'n' = false)]
  | .arr [], fl + 1, tl, _, _, _ => by
    have hshape : serVal (.arr []) ++ tl = '[' :: ']' :: tl := by
      simp [serVal, serItems]
    rw [hshape]
    simp [jparse, dropWs, isWsChar, (by decide : isAsciiDigit '[' = false)]
  | .arr (e0 :: es), fl + 1, tl, hjw, hlt, _ => by
    have hjw2 : itemsWf (e0 :: es) = true := by simpa only [jsonWf] using hjw
    have hlen : (serItems (e0 :: es)).length + 1 < fl := by
      simp only [serVal, List.length_cons, List.length_append,
        List.length_singleton] at hlt
      omega
    have hitems := jparseItems_ser e0 es fl tl hjw2 hlen
    obtain ⟨c0, t0, hser, hflags⟩ := serItems_head e0 es
    obtain ⟨hws0, hbr1, _⟩ := headFlags_split c0 hflags
    have hshape : serVal (.arr (e0 :: es)) ++ tl
        = '[' :: (serItems (e0 :: es) ++ (']' :: tl)) := by
      simp [serVal]
    rw [hshape]
    simp only [jparse]
    rw [dropWs_cons '[' _ (by decide)]
    rw [hser] at hitems ⊢
    simp only [List.cons_append] at hitems ⊢
    rw [dropWs_cons c0 _ hws0]
    simp [hitems, hbr1, (by decide : ¬(('[' : Char) = '"')),
      (by decide : ¬(('[' : Char) = '{'))]
  | .obj [], fl + 1, tl, _, _, _ => by
    have hshape : serVal (.obj []) ++ tl = '{' :: '}' :: tl := by
      simp [serVal, serMembers]
    rw [hshape]
    simp [jparse, dropWs, isWsChar, (by decide : isAsciiDigit '{' = false)]
  | .obj ((ky, vj) :: mtl), fl + 1, tl, hjw, hlt, _ => by
    have hjw2 : membersWf ((ky, vj) :: mtl) = true := by simpa only [jsonWf] using hjw
    have hlen : (serMembers ((ky, vj) :: mtl)).length + 1 < fl := by
      simp only [serVal, List.length_cons, List.length_append,
        List.length_singleton] at hlt
      omega
    have hmem := jparseMembers_ser ky vj mtl fl tl hjw2 hlen
    obtain ⟨t0, hser⟩ := serMembers_head ky vj mtl
    have hshape : serVal (.obj ((ky, vj) :: mtl)) ++ tl
        = '{' :: (serMembers ((ky, vj) :: mtl) ++ ('}' :: tl)) := by
      simp [serVal]
    rw [hshape]
    simp only [jparse]
    rw [dropWs_cons '{' _ (by decide)]
    rw [hser] at hmem ⊢
    simp only [List.cons_append] at hmem ⊢
    rw [dropWs_cons '"' _ (by decide)]
    simp [hmem, (by decide : ¬(('{' : Char) = '"')),
      (by decide : ¬(('"' : Char) = '}'))]
  termination_by j _ _ _ _ _ => sizeOf j

theorem jparseItems_ser : ∀ (e0 : Json) (es : List Json) (fl : Nat) (tl : List Char),
    itemsWf (e0 :: es) = true → (serItems (e0 :: es)).length + 1 < fl →
    jparseItems fl (serItems (e0 :: es) ++ (']' :: tl)) = some (e0 :: es, tl)
  | _, _, 0, _, _, hlt => absurd hlt (Nat.not_lt_zero _)
  | e0, [], fl + 1, tl, hjw, hlt => by
    have hjw0 : jsonWf e0 = true := by
      simp only [itemsWf, Bool.and_eq_true] at hjw
      exact hjw.1
    have hlen : (serVal e0).length < fl := by
      simp only [serItems] at hlt
      omega
    have h0 := jparse_ser e0 fl (']' :: tl) hjw0 hlen rfl
    simp only [serItems]
    simp only [jparseItems, h0]
    rw [dropWs_cons ']' _ (by decide)]
    simp
  | e0, e1 :: etl, fl + 1, tl, hjw, hlt => by
    have hjw0 : jsonWf e0 = true := by
      simp only [itemsWf, Bool.and_eq_true] at hjw
      exact hjw.1
    have hjwt : itemsWf (e1 :: etl) = true := by
      simp only [itemsWf, Bool.and_eq_true] at hjw ⊢
      exact hjw.2
    have hlen0 : (serVal e0).length < fl := by
      simp only [serItems, List.length_append, List.length_cons] at hlt
      omega
    have hlent : (serItems (e1 :: etl)).length + 1 < fl := by
      simp only [serItems, List.length_append, List.length_cons] at hlt
      omega
    have h0 := jparse_ser e0 fl (',' :: ' ' :: (serItems (e1 :: etl) ++ (']' :: tl)))
      hjw0 hlen0 rfl
    have htail := jparseItems_ser e1 etl fl tl hjwt hlent
    have hshape : serItems (e0 :: e1 :: etl) ++ (']' :: tl)
        = serVal e0 ++ (',' :: ' ' :: (serItems (e1 :: etl) ++ (']' :: tl))) := by
      simp [serItems]
    rw [hshape]
    simp only [jparseItems, h0]
    rw [dropWs_cons ',' _ (by decide)]
    simp only [jparseItems_space, htail]
  termination_by e0 es _ _ _ _ => sizeOf e0 + sizeOf es + 1

theorem jparseMembers_ser : ∀ (ky : String) (vj : Json) (mtl : List (String × Json))
    (fl : Nat) (tl : List Char),
    membersWf ((ky, vj) :: mtl) = true → (serMembers ((ky, vj) :: mtl)).length + 1 < fl →
    jparseMembers fl (serMembers ((ky, vj) :: mtl) ++ ('}' :: tl))
      = some ((ky, vj) :: mtl, tl)
  | _, _, _, 0, _, _, hlt => absurd hlt (Nat.not_lt_zero _)
  | ky, vj, [], fl + 1, tl, hjw, hlt => by
    have hkchars : ∀ c ∈ ky.data, charOk c = true := by
      simp only [membersWf, Bool.and_eq_true, strOk, List.all_eq_true,
        decide_eq_true_eq] at hjw
      exact hjw.1.1
    have hjwv : jsonWf vj = true := by
      simp only [membersWf, Bool.and_eq_true] at hjw
      exact hjw.1.2
    have hlen : (serVal vj).length < fl := by
      simp only [serMembers, encStr, List.length_append, List.length_cons] at hlt
      omega
    have hkey := decStrBody_enc ky.data (':' :: ' ' :: (serVal vj ++ ('}' :: tl))) hkchars
    have hv := jparse_ser vj fl ('}' :: tl) hjwv hlen rfl
    have hshape : serMembers ((ky, vj) :: []) ++ ('}' :: tl)
        = '"' :: (encStrBody ky.data ++
            ('"' :: (':' :: ' ' :: (serVal vj ++ ('}' :: tl))))) := by
      simp [serMembers, encStr]
    rw [hshape]
    simp only [jparseMembers]
    rw [dropWs_cons '"' _ (by decide)]
    simp only [reduceIte, hkey]
    rw [dropWs_cons ':' _ (by decide)]
    simp only [jparse_space, hv]
    rw [dropWs_cons '}' _ (by decide)]
    simp [strMk_data]
  | ky, vj, (ky2, vj2) :: mtl2, fl + 1, tl, hjw, hlt => by
    have hkchars : ∀ c ∈ ky.data, charOk c = true := by
      simp only [membersWf, Bool.and_eq_true, strOk, List.all_eq_true,
        decide_eq_true_eq] at hjw
      exact hjw.1.1
    have hjwv : jsonWf vj = true := by
      simp only [membersWf, Bool.and_eq_true] at hjw
      exact hjw.1.2
    have hjwt : membersWf ((ky2, vj2) :: mtl2) = true := by
      simp only [membersWf, Bool.and_eq_true] at hjw ⊢
      exact hjw.2
    have hlenv : (serVal vj).length < fl := by
      simp only [serMembers, encStr, List.length_append, List.length_cons] at hlt
      omega
    have hlent : (serMembers ((ky2, vj2) :: mtl2)).length + 1 < fl := by
      simp only [serMembers, encStr, List.length_append, List.length_cons] at hlt
      omega
    have hkey := decStrBody_enc ky.data
      (':' :: ' ' :: (serVal vj ++
        (',' :: ' ' :: (serMembers ((ky2, vj2) :: mtl2) ++ ('}' :: tl))))) hkchars
    have hv := jparse_ser vj fl
      (',' :: ' ' :: (serMembers ((ky2, vj2) :: mtl2) ++ ('}' :: tl))) hjwv hlenv
      rfl
    have htail := jparseMembers_ser ky2 vj2 mtl2 fl tl hjwt hlent
    have hshape : serMembers ((ky, vj) :: (ky2, vj2) :: mtl2) ++ ('}' :: tl)
        = '"' :: (encStrBody ky.data ++
            ('"' :: (':' :: ' ' :: (serVal vj ++
              (',' :: ' ' :: (serMembers ((ky2, vj2) :: mtl2) ++ ('}' :: tl))))))) := by
      simp [serMembers, encStr]
    rw [hshape]
    simp only [jparseMembers]
    rw [dropWs_cons '"' _ (by decide)]
    simp only [reduceIte, hkey]
    rw [dropWs_cons ':' _ (by decide)]
    simp only [jparse_space, hv]
    rw [dropWs_cons ',' _ (by decide)]
    simp only [jparseMembers_space, htail, strMk_data]
  termination_by _ vj mtl _ _ _ _ => sizeOf vj + sizeOf mtl + 1
end


theorem jsonLoads_dumps (j : Json) (h : jsonWf j = true) :
    jsonLoads (jsonDumps j) = .ok j := by
  have hp := jparse_ser j ((serVal j).length + 1) [] h (by omega) rfl
  rw [List.append_nil] at hp
  simp only [jsonLoads, jsonDumps]
  rw [show (String.mk (serVal j)).length = (serVal j).length from rfl, hp]
  simp [dropWs]

/-- C6: parse_problem inverts serialization exactly on box mappings —
the decoded ordered mapping equals the one serialized, so keys, their
order, and every type tag are preserved — and any boxes field that the
decoder rejects raises the fatal parse error naming the problem. -/
theorem claim6_parse_problem_roundtrip :
    (∀ members : List (String × Json), membersWf members = true →
      parse_problem ⟨jsonDumps (.obj members)⟩ = .ok ⟨.obj members⟩) ∧
    (∀ s : String, (∃ e, jsonLoads s = .error e) →
      parse_problem ⟨s⟩ = .error "Invalid JSON in boxes content") := by
  constructor
  · intro members hwf
    have h := jsonLoads_dumps (.obj members) (by simpa only [jsonWf] using hwf)
    simp [parse_problem, h]
  · rintro s ⟨e, he⟩
    simp [parse_problem, he]

/-- C6 witness: a two-box mapping survives the round trip with keys,
order and type tags intact, and a malformed boxes field raises. -/
theorem claim6_witness :
    parse_problem ⟨jsonDumps (.obj
        [("a", .obj [("type", .str "text"), ("content", .str "hello")]),
          ("b", .obj [("type", .str "file"), ("max_size", .num 100)])])⟩ =
      .ok ⟨.obj [("a", .obj [("type", .str "text"), ("content", .str "hello")]),
        ("b", .obj [("type", .str "file"), ("max_size", .num 100)])]⟩ ∧
    parse_problem ⟨"not json"⟩ = .error "Invalid JSON in boxes content" :=
  ⟨claim6_parse_problem_roundtrip.1
      [("a", .obj [("type", .str "text"), ("content", .str "hello")]),
        ("b", .obj [("type", .str "file"), ("max_size", .num 100)])] (by decide),
    claim6_parse_problem_roundtrip.2 "not json" ⟨"Expecting value", rfl⟩⟩
